import Mathlib

/-!
Verification of the placeholder-extraction and document-generation pipeline
of the DocX Template Filler server (`server.js`).

The embedding models:
* `extractPlaceholders` (server.js lines 38-59): scan a fixed list of XML
  parts of the uploaded archive with the global regex
  `/\{\{([A-Za-z0-9_]+)\}\}/g`, collect the captured names in a `Set`,
  and return `Array.from(set).sort()`.
* the `POST /api/parse` route handler (lines 87-107),
* `fillTemplate` and the `POST /api/generate` route handler (lines 114-145).

External collaborators (PizZip, docxtemplater, `JSON.parse`) are modelled by
their observable outcomes: a buffer either opens as an archive (a finite map
from part names to decoded text) or throws; a `values` form field is either
JS-falsy, parses to a mapping, or makes `JSON.parse` throw; `fillTemplate`
either returns output bytes or throws an error that optionally carries a
structured `properties.explanation`.
-/

namespace DocxFiller

/-- Character class `[A-Za-z0-9_]` of the extraction regex
`/\{\{([A-Za-z0-9_]+)\}\}/g` in `extractPlaceholders`. -/
def isTagChar (c : Char) : Bool :=
  ('A' ≤ c && c ≤ 'Z') || ('a' ≤ c && c ≤ 'z') || ('0' ≤ c && c ≤ '9') || c == '\x5f'

/-- Attempt the regex `\{\{([A-Za-z0-9_]+)\}\}` at the start of `l`:
two literal `{`, then the greedy capture of one or more tag characters,
then two literal `}`.  Since `}` is not a tag character, the greedy `+`
capture is exactly the maximal `takeWhile` run. -/
def tagAt : List Char → Option (List Char)
  | c1 :: c2 :: rest =>
    if c1 = '\x7b' ∧ c2 = '\x7b' ∧ rest.takeWhile isTagChar ≠ [] ∧
        (rest.dropWhile isTagChar).take 2 = ['\x7d', '\x7d'] then
      some (rest.takeWhile isTagChar)
    else none
  | _ => none

/-- All matches of the global regex over a text, in order, as produced by the
`while ((m = re.exec(text)) !== null)` loop of `extractPlaceholders`.

The loop yields the leftmost match, then continues searching at the match
end.  A match `{{name}}` contains `{` only at its first two positions and
every later character of it is a tag character or `}`, so no match can begin
strictly inside another: matches are pairwise disjoint, and the exec loop
finds precisely the set of positions where the pattern matches, left to
right.  Scanning every position and emitting wherever `tagAt` succeeds
therefore yields exactly the same list of captures. -/
def scanTags : List Char → List String
  | [] => []
  | c :: cs =>
    match tagAt (c :: cs) with
    | some nm => String.mk nm :: scanTags cs
    | none => scanTags cs

/-- A successfully opened archive: the `zip.files` mapping, part name to
decoded part text (`file.asText()`). -/
abbrev Zip := List (String × String)

/-- Look up a part by name in the archive (`zip.files[name]`). -/
def getFile (z : Zip) (name : String) : Option String :=
  (z.find? (fun p => p.1 == name)).map (fun p => p.2)

/-- The fixed candidate part list (`targets` in `extractPlaceholders`). -/
def targets : List String :=
  ["word/document.xml",
   "word/header1.xml", "word/header2.xml", "word/header3.xml",
   "word/footer1.xml", "word/footer2.xml", "word/footer3.xml"]

/-- Tags contributed by one candidate part; a part absent from the archive
(`if (!file) continue;`) contributes nothing. -/
def partTags (z : Zip) (name : String) : List String :=
  match getFile z name with
  | none => []
  | some text => scanTags text.data

/-- Lexicographic code-point comparison of character lists; on the ASCII
names produced by the tag grammar this is exactly the default JS
`Array.prototype.sort` string comparison used by `.sort()`. -/
def lexLe : List Char → List Char → Bool
  | [], _ => true
  | _ :: _, [] => false
  | c :: cs, d :: ds =>
    if c.toNat < d.toNat then true
    else if d.toNat < c.toNat then false
    else lexLe cs ds

/-- String comparison used to model `Array.from(found).sort()`. -/
def strLe (a b : String) : Bool := lexLe a.data b.data

/-- Model of `Array.from(found).sort()`: sort ascending by `strLe`.  On the
duplicate-free input produced by the `Set`, any sorting algorithm returns
the unique sorted arrangement, so insertion sort is extensionally the JS
sort. -/
def sortStrings (l : List String) : List String :=
  List.insertionSort (fun a b => strLe a b = true) l

/-- The pure body of `extractPlaceholders` on a successfully opened archive:
collect the captures from each candidate part in order, deduplicate keeping
first occurrences (the `Set` in insertion order), and sort. -/
def extractTags (z : Zip) : List String :=
  sortStrings (targets.flatMap (partTags z)).dedup

/-- An upload buffer as seen through `new PizZip(buffer)`: either PizZip
throws with some message, or the buffer opens as an archive. -/
inductive DocxBuffer where
  | corrupt (msg : String)
  | zip (z : Zip)

/-- `extractPlaceholders(buffer)` (server.js lines 38-59): throws the PizZip
error if the buffer is not a valid archive, otherwise returns the sorted
array of unique tag names. -/
def extractPlaceholders : DocxBuffer → Except String (List String)
  | .corrupt msg => .error msg
  | .zip z => .ok (extractTags z)

/-- Responses of `POST /api/parse`, tagged by HTTP status. -/
inductive ParseResponse where
  | badRequest (error : String)
  | unprocessable (error : String)
  | ok (placeholders : List String)
  | internalError (error : String)
deriving DecidableEq

/-- The 422 message of `/api/parse`. -/
def noTagsMsg : String :=
  "No \x7b\x7bPLACEHOLDER\x7d\x7d tags found. Make sure your template uses double-curly-brace syntax, e.g. \x7b\x7bCLIENT_NAME\x7d\x7d."

/-- The `POST /api/parse` handler (server.js lines 87-107): 400 when no file
was uploaded; otherwise run `extractPlaceholders` inside `try`, turning a
thrown error into a 500 response with the error message; 422 when the list
is empty; 200 with the list otherwise. -/
def apiParse (file : Option DocxBuffer) : ParseResponse :=
  match file with
  | none => .badRequest "No file uploaded."
  | some b =>
    match extractPlaceholders b with
    | .error msg => .internalError msg
    | .ok ps => if ps.length = 0 then .unprocessable noTagsMsg else .ok ps

/-- Predicate for a client-input (HTTP 400) response of `/api/parse`. -/
def isClientError : ParseResponse → Bool
  | .badRequest _ => true
  | _ => false

/-- Archive whose main text part contains the tags A, B, A. -/
def exampleDocABA : Zip :=
  [("word/document.xml", "<w:t>\x7b\x7bA\x7d\x7d \x7b\x7bB\x7d\x7d \x7b\x7bA\x7d\x7d</w:t>")]


/-! Model of the generation side (`fillTemplate` and `POST /api/generate`). -/

/-- Outcome of `fillTemplate(buffer, values)` for one template buffer and one
value mapping: either the filled document bytes, or a thrown error.  A
docxtemplater error may carry a structured `properties.explanation`
(modelled as `some explanation`); plain errors (including a PizZip failure
on a corrupt buffer) carry only `err.message`. -/
inductive FillOutcome where
  | ok (doc : List Nat)
  | throwErr (explanation : Option String) (message : String)

/-- An uploaded template file for `/api/generate`: its original client file
name and the behaviour of `fillTemplate` on its buffer as a function of the
value mapping. -/
structure UploadFile where
  originalname : String
  fill : List (String × String) → FillOutcome

/-- The `values` multipart form field as seen by the handler.  A present
field is a string: JS-falsy (the empty string) skips parsing entirely;
otherwise `JSON.parse` either yields a mapping or throws. -/
inductive ValuesField where
  | falsy
  | json (v : List (String × String))
  | malformed

/-- Responses of `POST /api/generate`, tagged by HTTP status.  A success
carries the `Content-Disposition` file name and the document bytes. -/
inductive GenerateResponse where
  | badRequest (error : String)
  | internalError (error : String)
  | ok (filename : String) (doc : List Nat)
deriving DecidableEq

/-- Model of `let values = {}; if (req.body.values) { try { values =
JSON.parse(...) } catch { return 400 } }`: a missing or falsy field leaves
the empty mapping; a malformed field is the 400 error. -/
def decodeValues : Option ValuesField → Except String (List (String × String))
  | some .malformed => .error "Invalid JSON in 'values' field."
  | some (.json v) => .ok v
  | _ => .ok []

/-- Model of `path.basename(name, ".docx")` on an uploaded original file
name: the component after the last `/`, with a trailing `.docx` removed
unless the component is exactly `.docx`. -/
def basenameNoDocx (s : String) : String :=
  let comp := String.mk (s.data.reverse.takeWhile (fun c => c ≠ '/')).reverse
  if comp.data.reverse.take 5 = ['x', 'c', 'o', 'd', '.'] ∧ comp.data.length ≠ 5 then
    String.mk (comp.data.take (comp.data.length - 5))
  else comp

/-- The render stage of the `/api/generate` handler: run `fillTemplate` and
either send the filled document with the derived attachment name, or catch
the thrown error and answer 500 with `err.properties?.explanation ??
err.message`. -/
def renderStage (f : UploadFile) (values : List (String × String)) :
    GenerateResponse :=
  match f.fill values with
  | .ok doc => .ok (basenameNoDocx f.originalname ++ "_filled.docx") doc
  | .throwErr expl msg => .internalError (expl.getD msg)

/-- The `POST /api/generate` handler (server.js lines 114-145): 400 when no
file was uploaded, 400 when a truthy `values` field fails to parse, and
otherwise the render stage on the decoded mapping. -/
def apiGenerate (file : Option UploadFile) (valuesField : Option ValuesField) :
    GenerateResponse :=
  match file with
  | none => .badRequest "No file uploaded."
  | some f =>
    match decodeValues valuesField with
    | .error msg => .badRequest msg
    | .ok values => renderStage f values

/-- Predicate for a client-input (HTTP 400) response of `/api/generate`. -/
def isBadRequestGen : GenerateResponse → Bool
  | .badRequest _ => true
  | _ => false

/-- Archive containing both casings of the same tag name. -/
def exampleDocNames : Zip :=
  [("word/document.xml", "\x7b\x7bName\x7d\x7d\x7b\x7bNAME\x7d\x7d")]

/-- Template file whose fill always succeeds, used as concrete witness
data for the generation claims. -/
def plainFile : UploadFile := ⟨"a.docx", fun _ => .ok [1, 2, 3]⟩

/-! Helper lemmas about the order used by the sort. -/

theorem lexLe_total (a b : List Char) : lexLe a b = true ∨ lexLe b a = true := by
  induction a generalizing b with
  | nil => left; rfl
  | cons c cs ih =>
    cases b with
    | nil => right; rfl
    | cons d ds =>
      rcases Nat.lt_trichotomy c.toNat d.toNat with h | h | h
      · left; simp [lexLe, h]
      · rcases ih ds with hcd | hdc
        · left; simp [lexLe, h, hcd]
        · right; simp [lexLe, h.symm, hdc]
      · right; simp [lexLe, h]

theorem lexLe_trans (a b c : List Char) (h1 : lexLe a b = true)
    (h2 : lexLe b c = true) : lexLe a c = true := by
  induction a generalizing b c with
  | nil => rfl
  | cons x xs ih =>
    cases b with
    | nil => simp [lexLe] at h1
    | cons y ys =>
      cases c with
      | nil => simp [lexLe] at h2
      | cons z zs =>
        simp only [lexLe] at h1 h2 ⊢
        split_ifs at h1 h2 ⊢ <;> first
        | rfl
        | omega
        | exact ih ys zs h1 h2

theorem strLe_total (a b : String) : strLe a b = true ∨ strLe b a = true :=
  lexLe_total a.data b.data

theorem strLe_trans (a b c : String) (h1 : strLe a b = true)
    (h2 : strLe b c = true) : strLe a c = true :=
  lexLe_trans a.data b.data c.data h1 h2

theorem sortStrings_sorted (l : List String) :
    (sortStrings l).Sorted (fun a b => strLe a b = true) := by
  haveI : IsTotal String (fun a b => strLe a b = true) := ⟨strLe_total⟩
  haveI : IsTrans String (fun a b => strLe a b = true) := ⟨strLe_trans⟩
  exact List.sorted_insertionSort _ l

theorem sortStrings_perm (l : List String) : (sortStrings l).Perm l :=
  List.perm_insertionSort _ l

theorem extractTags_sorted (z : Zip) :
    (extractTags z).Sorted (fun a b => strLe a b = true) :=
  sortStrings_sorted _

theorem extractTags_nodup (z : Zip) : (extractTags z).Nodup :=
  (sortStrings_perm _).nodup_iff.mpr (List.nodup_dedup _)

theorem mem_extractTags_iff (z : Zip) (s : String) :
    s ∈ extractTags z ↔ s ∈ targets.flatMap (partTags z) := by
  unfold extractTags
  rw [(sortStrings_perm _).mem_iff, List.mem_dedup]

/-! Helper lemmas about the scanner. -/

theorem takeWhile_name (name xs : List Char)
    (h : ∀ c ∈ name, isTagChar c = true) :
    (name ++ '\x7d' :: xs).takeWhile isTagChar = name ∧
      (name ++ '\x7d' :: xs).dropWhile isTagChar = '\x7d' :: xs := by
  have h7d : isTagChar '\x7d' = false := by decide
  induction name with
  | nil =>
    constructor
    · simp [List.takeWhile_cons, h7d]
    · simp [List.dropWhile_cons, h7d]
  | cons c cs ih =>
    have hc : isTagChar c = true := h c (by simp)
    have ihh := ih (fun d hd => h d (by simp [hd]))
    constructor
    · simp [List.takeWhile_cons, hc, ihh.1]
    · simp [List.dropWhile_cons, hc, ihh.2]

theorem tagAt_spec (l nm : List Char) (h : tagAt l = some nm) :
    nm ≠ [] ∧ ∀ c ∈ nm, isTagChar c = true := by
  cases l with
  | nil => simp [tagAt] at h
  | cons c1 t =>
    cases t with
    | nil => simp [tagAt] at h
    | cons c2 rest =>
      simp only [tagAt] at h
      split_ifs at h with hcond
      cases h
      exact ⟨hcond.2.2.1, fun c hc => List.mem_takeWhile_imp hc⟩

theorem tagAt_pattern (name l2 : List Char) (hne : name ≠ [])
    (hname : ∀ c ∈ name, isTagChar c = true) :
    tagAt ('\x7b' :: '\x7b' :: (name ++ '\x7d' :: '\x7d' :: l2)) = some name := by
  have ht := takeWhile_name name ('\x7d' :: l2) hname
  show (if '\x7b' = '\x7b' ∧ '\x7b' = '\x7b' ∧
      (name ++ '\x7d' :: '\x7d' :: l2).takeWhile isTagChar ≠ [] ∧
      ((name ++ '\x7d' :: '\x7d' :: l2).dropWhile isTagChar).take 2 = ['\x7d', '\x7d'] then
    some ((name ++ '\x7d' :: '\x7d' :: l2).takeWhile isTagChar)
  else none) = some name
  rw [if_pos ⟨rfl, rfl, by rw [ht.1]; exact hne, by rw [ht.2]; simp⟩, ht.1]

theorem scanTags_cons_some (c : Char) (cs nm : List Char)
    (h : tagAt (c :: cs) = some nm) :
    scanTags (c :: cs) = String.mk nm :: scanTags cs := by
  simp [scanTags, h]

theorem scanTags_cons_none (c : Char) (cs : List Char)
    (h : tagAt (c :: cs) = none) : scanTags (c :: cs) = scanTags cs := by
  simp [scanTags, h]

theorem mem_scanTags_grammar (l : List Char) (s : String) (hs : s ∈ scanTags l) :
    s.data ≠ [] ∧ ∀ c ∈ s.data, isTagChar c = true := by
  induction l with
  | nil => simp [scanTags] at hs
  | cons c cs ih =>
    cases htag : tagAt (c :: cs) with
    | none =>
      rw [scanTags_cons_none c cs htag] at hs
      exact ih hs
    | some nm =>
      rw [scanTags_cons_some c cs nm htag] at hs
      rcases List.mem_cons.mp hs with rfl | hmem
      · exact tagAt_spec _ nm htag
      · exact ih hmem

theorem scanTags_append (l1 name l2 : List Char) (hne : name ≠ [])
    (hname : ∀ c ∈ name, isTagChar c = true) :
    String.mk name ∈ scanTags (l1 ++ '\x7b' :: '\x7b' :: (name ++ '\x7d' :: '\x7d' :: l2)) := by
  induction l1 with
  | nil =>
    rw [List.nil_append,
      scanTags_cons_some _ _ name (tagAt_pattern name l2 hne hname)]
    exact List.mem_cons_self _ _
  | cons c cs ih =>
    rw [List.cons_append]
    cases htag : tagAt (c :: (cs ++ '\x7b' :: '\x7b' :: (name ++ '\x7d' :: '\x7d' :: l2))) with
    | none => rw [scanTags_cons_none _ _ htag]; exact ih
    | some nm => rw [scanTags_cons_some _ _ nm htag]; exact List.mem_cons_of_mem _ ih

/-! Helper lemmas about the per-part collection. -/

theorem partTags_congr (z1 z2 : Zip) (n : String)
    (h : getFile z1 n = getFile z2 n) : partTags z1 n = partTags z2 n := by
  unfold partTags
  rw [h]

theorem flatMap_partTags_eq (z : Zip) (ns : List String) :
    ns.flatMap (partTags z) =
      (ns.filterMap (getFile z)).flatMap (fun t => scanTags t.data) := by
  induction ns with
  | nil => rfl
  | cons n rest ih =>
    cases h : getFile z n <;>
      simp [List.flatMap_cons, List.filterMap_cons, h, partTags, ih]

theorem mem_extractTags_of_part (z : Zip) (n : String) (hn : n ∈ targets)
    (text s : String) (hget : getFile z n = some text)
    (hmem : s ∈ scanTags text.data) : s ∈ extractTags z := by
  rw [mem_extractTags_iff]
  refine List.mem_flatMap.mpr ⟨n, hn, ?_⟩
  unfold partTags
  rw [hget]
  exact hmem

theorem renderStage_ne_badRequest (f : UploadFile)
    (values : List (String × String)) (msg : String) :
    renderStage f values ≠ .badRequest msg := by
  unfold renderStage
  cases f.fill values <;> simp

/-! Claim theorems. -/

/-- C1: for every valid archive buffer, extraction returns a list of tag
names with no duplicates, sorted ascending lexicographically by code point;
in particular, on an archive whose main text part contains the tags A, B, A
it returns exactly the list A, B. -/
theorem extract_sorted_unique :
    (∀ z : Zip, extractPlaceholders (.zip z) = .ok (extractTags z)
        ∧ (extractTags z).Nodup
        ∧ (extractTags z).Sorted (fun a b => strLe a b = true))
    ∧ extractTags exampleDocABA = ["A", "B"] :=
  ⟨fun z => ⟨rfl, extractTags_nodup z, extractTags_sorted z⟩, by decide⟩

/-- C2 counterexample: an upload whose bytes PizZip cannot open is answered
with the generic 500 internal-error response carrying the thrown message —
it is not the client-input (400) condition the claim states. -/
theorem apiParse_corrupt_counterexample :
    apiParse (some (.corrupt "End of data reached")) =
      .internalError "End of data reached"
    ∧ isClientError (apiParse (some (.corrupt "End of data reached"))) = false :=
  ⟨rfl, rfl⟩

/-- C2 (amended): for every upload whose bytes cannot be opened as a valid
archive, the thrown PizZip error is caught by the route handler and turned
into a generic 500 internal-error response with the engine's message — the
process never crashes, but the failure is not reported as a client-input
(400) condition. -/
theorem apiParse_corrupt_internalError (msg : String) :
    apiParse (some (.corrupt msg)) = .internalError msg
    ∧ isClientError (apiParse (some (.corrupt msg))) = false :=
  ⟨rfl, rfl⟩

/-- C3: a valid archive in which extraction finds zero tags is answered with
the distinguished 422 unprocessable-entity condition, which differs from
both failure kinds, and a success response never carries an empty list. -/
theorem apiParse_noTags_unprocessable :
    (∀ z : Zip, extractTags z = [] →
        apiParse (some (.zip z)) = .unprocessable noTagsMsg)
    ∧ (∀ (file : Option DocxBuffer) (ps : List String),
        apiParse file = .ok ps → ps ≠ [])
    ∧ (∀ m, ParseResponse.unprocessable noTagsMsg ≠ .internalError m
        ∧ ParseResponse.unprocessable noTagsMsg ≠ .badRequest m) := by
  refine ⟨fun z h => by simp [apiParse, extractPlaceholders, h],
    fun file ps h => ?_, fun m => by constructor <;> simp⟩
  match file with
  | none => simp [apiParse] at h
  | some (.corrupt m) => simp [apiParse, extractPlaceholders] at h
  | some (.zip z) =>
    simp only [apiParse, extractPlaceholders] at h
    split at h
    · simp at h
    · next hlen =>
      injection h with h
      subst h
      intro hnil
      rw [hnil] at hlen
      exact hlen rfl

/-- Witness for C3 at the empty archive, which has no parts and hence zero
tags. -/
theorem apiParse_noTags_unprocessable_witness :
    apiParse (some (.zip ([] : Zip))) = .unprocessable noTagsMsg :=
  apiParse_noTags_unprocessable.1 [] (by decide)

/-- C4: matching is case-sensitive and case-preserving — whenever scanned
candidate parts contain Name and NAME as double-brace tags (in any
position of any candidate part), extraction returns both spellings as two
distinct entries. -/
theorem extract_case_sensitive (z : Zip) (n1 n2 : String)
    (hn1 : n1 ∈ targets) (hn2 : n2 ∈ targets) (pre1 post1 pre2 post2 : List Char)
    (h1 : getFile z n1 = some (String.mk
      (pre1 ++ '\x7b' :: '\x7b' :: 'N' :: 'a' :: 'm' :: 'e' :: '\x7d' :: '\x7d' :: post1)))
    (h2 : getFile z n2 = some (String.mk
      (pre2 ++ '\x7b' :: '\x7b' :: 'N' :: 'A' :: 'M' :: 'E' :: '\x7d' :: '\x7d' :: post2))) :
    "Name" ∈ extractTags z ∧ "NAME" ∈ extractTags z
      ∧ ("Name" : String) ≠ "NAME" := by
  refine ⟨?_, ?_, by decide⟩
  · exact mem_extractTags_of_part z n1 hn1 _ _ h1
      (scanTags_append pre1 ['N', 'a', 'm', 'e'] post1 (by decide) (by decide))
  · exact mem_extractTags_of_part z n2 hn2 _ _ h2
      (scanTags_append pre2 ['N', 'A', 'M', 'E'] post2 (by decide) (by decide))

/-- Witness for C4 at a concrete archive holding both casings in its main
text part. -/
theorem extract_case_sensitive_witness :
    "Name" ∈ extractTags exampleDocNames ∧ "NAME" ∈ extractTags exampleDocNames
      ∧ ("Name" : String) ≠ "NAME" :=
  extract_case_sensitive exampleDocNames "word/document.xml" "word/document.xml"
    (by decide) (by decide)
    [] ['\x7b', '\x7b', 'N', 'A', 'M', 'E', '\x7d', '\x7d']
    ['\x7b', '\x7b', 'N', 'a', 'm', 'e', '\x7d', '\x7d'] []
    (by decide) (by decide)

/-- C5: extraction scans exactly the fixed seven-part candidate list (body,
three headers, three footers); a valid archive never errors whatever parts
it lacks; the result is computed from the present candidate parts alone;
and archives agreeing on the candidate parts extract identical tag lists. -/
theorem extract_fixed_candidates :
    targets = ["word/document.xml", "word/header1.xml", "word/header2.xml",
        "word/header3.xml", "word/footer1.xml", "word/footer2.xml",
        "word/footer3.xml"]
    ∧ (∀ z : Zip, extractPlaceholders (.zip z) = .ok (extractTags z))
    ∧ (∀ z : Zip, extractTags z =
        sortStrings ((targets.filterMap (getFile z)).flatMap
          (fun t => scanTags t.data)).dedup)
    ∧ (∀ z1 z2 : Zip, (∀ n ∈ targets, getFile z1 n = getFile z2 n) →
        extractTags z1 = extractTags z2) := by
  refine ⟨rfl, fun z => rfl, fun z => ?_, fun z1 z2 h => ?_⟩
  · unfold extractTags
    rw [flatMap_partTags_eq]
  · have aux : ∀ ns : List String, (∀ n ∈ ns, getFile z1 n = getFile z2 n) →
        ns.flatMap (partTags z1) = ns.flatMap (partTags z2) := by
      intro ns
      induction ns with
      | nil => intro; rfl
      | cons n rest ih =>
        intro hh
        rw [List.flatMap_cons, List.flatMap_cons,
          partTags_congr z1 z2 n (hh n (by simp)),
          ih (fun m hm => hh m (by simp [hm]))]
    unfold extractTags
    rw [aux targets h]

/-- Witness for C5: a part outside the candidate list is ignored, so an
archive holding only such a part extracts the same (empty) list as the
empty archive. -/
theorem extract_fixed_candidates_witness :
    extractTags [("word/styles.xml", "\x7b\x7bX\x7d\x7d")] = extractTags [] :=
  extract_fixed_candidates.2.2.2 _ _ (by decide)

/-- C6 counterexample: a present but JS-falsy `values` field — the empty
string, which is not well-formed JSON (`JSON.parse("")` throws) — does not
produce the 400 bad-input response: the truthiness guard
`if (req.body.values)` skips parsing and the call renders successfully. -/
theorem generate_falsy_values_counterexample :
    isBadRequestGen (apiGenerate (some plainFile) (some .falsy)) = false
    ∧ apiGenerate (some plainFile) (some .falsy) = .ok "a_filled.docx" [1, 2, 3] :=
  ⟨rfl, rfl⟩

/-- C6 (amended): a generation call without a file is answered 400, and a
present, truthy (non-empty) values field that fails JSON parsing is
answered 400 before any rendering — the quantification over every fill
behaviour shows the engine is never consulted.  A present empty-string
(JS-falsy) values field, although not well-formed JSON, instead skips
parsing and proceeds to the render stage with the empty mapping. -/
theorem generate_badInput :
    (∀ vf, apiGenerate none vf = .badRequest "No file uploaded.")
    ∧ (∀ f : UploadFile,
        apiGenerate (some f) (some .malformed) =
          .badRequest "Invalid JSON in 'values' field.")
    ∧ (∀ f : UploadFile, apiGenerate (some f) (some .falsy) = renderStage f []) :=
  ⟨fun _ => rfl, fun _ => rfl, fun _ => rfl⟩

/-- C7: when the render stage throws, the 500 response carries the engine's
structured explanation when present and otherwise its generic message. -/
theorem generate_render_error (f : UploadFile) (vf : Option ValuesField)
    (v : List (String × String)) (expl : Option String) (msg : String)
    (hv : decodeValues vf = .ok v) (hf : f.fill v = .throwErr expl msg) :
    apiGenerate (some f) vf = .internalError (expl.getD msg) := by
  simp [apiGenerate, hv, renderStage, hf]

/-- Witness for C7 at a file whose fill throws a structured error. -/
theorem generate_render_error_witness :
    apiGenerate (some ⟨"contract.docx",
        fun _ => .throwErr (some "Unclosed tag") "Multi error"⟩) none
      = .internalError "Unclosed tag" :=
  generate_render_error _ none [] (some "Unclosed tag") "Multi error" rfl rfl

/-- C8: extraction is deterministic — two runs on the same unmodified buffer
return the same sorted list. -/
theorem extract_deterministic (b : DocxBuffer) (l1 l2 : List String)
    (h1 : extractPlaceholders b = .ok l1)
    (h2 : extractPlaceholders b = .ok l2) :
    l1 = l2 ∧ l1.Sorted (fun a b => strLe a b = true) := by
  cases b with
  | corrupt m => simp [extractPlaceholders] at h1
  | zip z =>
    simp only [extractPlaceholders] at h1 h2
    injection h1 with h1
    injection h2 with h2
    subst h1
    subst h2
    exact ⟨rfl, extractTags_sorted z⟩

/-- Witness for C8 at the concrete A, B, A archive. -/
theorem extract_deterministic_witness :
    (["A", "B"] : List String) = ["A", "B"]
    ∧ (["A", "B"] : List String).Sorted (fun a b => strLe a b = true) :=
  extract_deterministic (.zip exampleDocABA) ["A", "B"] ["A", "B"]
    (congrArg Except.ok (by decide)) (congrArg Except.ok (by decide))

/-- C9: every extracted name is a non-empty string over the tag alphabet
(uppercase, lowercase, digits, underscore); in particular no name contains
a brace or a space. -/
theorem extract_grammar (b : DocxBuffer) (l : List String) (s : String)
    (hb : extractPlaceholders b = .ok l) (hs : s ∈ l) :
    s ≠ "" ∧ (∀ c ∈ s.data, isTagChar c = true)
    ∧ (∀ c ∈ s.data, c ≠ '\x7b' ∧ c ≠ '\x7d' ∧ c ≠ ' ') := by
  cases b with
  | corrupt m => simp [extractPlaceholders] at hb
  | zip z =>
    simp only [extractPlaceholders] at hb
    injection hb with hb
    subst hb
    obtain ⟨n, hn, hpart⟩ := List.mem_flatMap.mp ((mem_extractTags_iff z s).mp hs)
    revert hpart
    unfold partTags
    cases getFile z n with
    | none => intro hpart; simp at hpart
    | some t =>
      intro hpart
      obtain ⟨hne, htag⟩ := mem_scanTags_grammar t.data s hpart
      refine ⟨fun hEq => hne (by rw [hEq]), htag, fun c hc => ?_⟩
      have hcc := htag c hc
      refine ⟨?_, ?_, ?_⟩ <;> rintro rfl <;> exact absurd hcc (by decide)

/-- Witness for C9 at the concrete A, B, A archive and the extracted name A. -/
theorem extract_grammar_witness :
    ("A" : String) ≠ "" ∧ (∀ c ∈ ("A" : String).data, isTagChar c = true)
    ∧ (∀ c ∈ ("A" : String).data, c ≠ '\x7b' ∧ c ≠ '\x7d' ∧ c ≠ ' ') :=
  extract_grammar (.zip exampleDocABA) ["A", "B"] "A"
    (congrArg Except.ok (by decide)) (by decide)

/-- C10: a generation call with no values field at all proceeds to the
render stage with the empty mapping, and the only way to get the malformed
mapping 400 response is a present-but-malformed values field. -/
theorem generate_values_default :
    (∀ f : UploadFile, apiGenerate (some f) none = renderStage f [])
    ∧ (∀ (f : UploadFile) (vf : Option ValuesField),
        apiGenerate (some f) vf = .badRequest "Invalid JSON in 'values' field." →
          vf = some .malformed) := by
  refine ⟨fun f => rfl, fun f vf h => ?_⟩
  match vf with
  | some .malformed => rfl
  | none => exact absurd h (renderStage_ne_badRequest f [] _)
  | some .falsy => exact absurd h (renderStage_ne_badRequest f [] _)
  | some (.json v) => exact absurd h (renderStage_ne_badRequest f v _)

/-- Witness for C10 at a concrete file and the malformed values field. -/
theorem generate_values_default_witness :
    apiGenerate (some plainFile) none = renderStage plainFile []
    ∧ some ValuesField.malformed = some ValuesField.malformed :=
  ⟨generate_values_default.1 plainFile,
   generate_values_default.2 plainFile (some .malformed) rfl⟩

end DocxFiller
